import Mathlib

/-!
Verification development for the Cas-Predictor pipeline
(`src/hmmer_search.py`, `src/cas_typing.py`, `src/main.py`).

Modelling conventions:
* Python `float` values that occur in this program (parsed tabular fields,
  threshold literals) are modelled exactly: finite values as rationals `ℚ`
  plus the two infinities (`EFloat`).  The transcendental probability
  computation `min(100, -10 * math.log10(e))` is modelled over `EReal`
  with `Real.logb 10`; IEEE rounding of decimal literals is not modelled
  (all decimal literals in the program are modelled as exact rationals).
  NaN does not arise in this program's numeric paths and is not modelled.
* Fallible Python code is modelled with `Option`; a `try/except` block
  that substitutes a default becomes `Option.getD`.
* Python dicts are association lists with first-insertion key order and
  in-place value overwrite (`dictInsert`), matching CPython semantics.
-/

/-- Python float values arising in this program: exact finite values plus
`float('inf')` and `float('-inf')`. -/
inductive EFloat where
  | fin (q : ℚ)
  | inf
  | negInf
deriving DecidableEq

namespace EFloat

/-- Boolean `<=` on `EFloat`, the comparison Python performs on these
float values (no NaN involved). -/
def ble : EFloat → EFloat → Bool
  | .negInf, _ => true
  | .fin _, .negInf => false
  | .fin a, .fin b => decide (a ≤ b)
  | .fin _, .inf => true
  | .inf, .negInf => false
  | .inf, .fin _ => false
  | .inf, .inf => true

/-- Boolean `<` on `EFloat`. -/
def blt : EFloat → EFloat → Bool
  | .negInf, .negInf => false
  | .negInf, _ => true
  | .fin _, .negInf => false
  | .fin a, .fin b => decide (a < b)
  | .fin _, .inf => true
  | .inf, _ => false

instance : LE EFloat := ⟨fun a b => EFloat.ble a b = true⟩

instance : LT EFloat := ⟨fun a b => EFloat.blt a b = true⟩

instance (a b : EFloat) : Decidable (a ≤ b) :=
  inferInstanceAs (Decidable (_ = true))

instance (a b : EFloat) : Decidable (a < b) :=
  inferInstanceAs (Decidable (_ = true))

end EFloat

/-- A parsed hit record, as built by `HMMERSearch.parse_results`
(`hmmer_search.py`, lines 158-164). -/
structure Hit where
  query_name : String
  target_name : String
  e_value : EFloat
  score : EFloat
  hmm_model : String
deriving DecidableEq

/-- One classification record, as built by `CASTyping.classify_proteins`
(`cas_typing.py`, lines 115-122). -/
structure Classification where
  type : String
  confidence : String
  e_value : EFloat
  score : EFloat
  probability : EReal
  hmm_model : String

namespace CASTyping

/-- `needle.isPrefixOf`-based substring test: the Python `in` operator on
strings, over the character lists. -/
def isSubstring : List Char → List Char → Bool
  | needle, [] => needle.isEmpty
  | needle, c :: t => needle.isPrefixOf (c :: t) || isSubstring needle t

/-- Python `needle in hay` for strings. -/
def pyIn (needle hay : String) : Bool := isSubstring needle.data hay.data

/-- Python `s.lower()` on the ASCII identifiers of this program. -/
def pyLower (s : String) : String := String.mk (s.data.map Char.toLower)

/-- The built-in `default_mapping` dict of `CASTyping._load_cas_type_mapping`
(`cas_typing.py`, lines 24-63), in its insertion order. -/
def defaultMapping : List (String × String) :=
  [("cas3", "Type I (Cas3)"),
   ("cas8", "Type I"),
   ("cas5", "Type I"),
   ("cas6", "Type I"),
   ("cas7", "Type I"),
   ("cse1", "Type I-E"),
   ("cse2", "Type I-E"),
   ("csy1", "Type I-F"),
   ("csy2", "Type I-F"),
   ("csy3", "Type I-F"),
   ("csa5", "Type I-A"),
   ("csm", "Type III-A"),
   ("cas9", "Type II (Cas9)"),
   ("csn2", "Type II-A"),
   ("cas10", "Type III (Cas10)"),
   ("cmr", "Type III-B"),
   ("csx", "Type III"),
   ("csf", "Type IV"),
   ("cas12", "Type V (Cas12)"),
   ("cas12a", "Type V-A"),
   ("cas12b", "Type V-B"),
   ("cas12c", "Type V-C"),
   ("cas13", "Type VI (Cas13)"),
   ("cas13a", "Type VI-A"),
   ("cas13b", "Type VI-B"),
   ("cas13c", "Type VI-C"),
   ("cas13d", "Type VI-D"),
   ("cas1", "Adaptation"),
   ("cas2", "Adaptation"),
   ("cas4", "Adaptation"),
   ("dinG", "Adaptation")]

/-- The label-selection loop of `classify_proteins` (`cas_typing.py`,
lines 108-112): scan the mapping in order, first key whose lowercased text
is a substring of the lowercased name wins, default `"Unknown"`. -/
def casTypeOf : List (String × String) → String → String
  | [], _ => "Unknown"
  | (key, typeValue) :: rest, hmmModel =>
    if pyIn (pyLower key) (pyLower hmmModel) then typeValue
    else casTypeOf rest hmmModel

/-- The confidence-tier conditional of `classify_proteins` (`cas_typing.py`,
lines 91-96).  The decimal literals `1e-10` and `1e-5` are modelled exactly
(`mkRat 1 (10 ^ k)` is the rational `10⁻ᵏ`). -/
def confidence (e : EFloat) : String :=
  if e ≤ EFloat.fin (mkRat 1 (10 ^ 10)) then "High"
  else if e ≤ EFloat.fin (mkRat 1 (10 ^ 5)) then "Medium"
  else "Low"

/-- `math.log10` on the values it is applied to in `classify_proteins`
(only reached for `e_value > 0`).  `math.log10(float('inf'))` is `inf`. -/
noncomputable def elog10 : EFloat → EReal
  | .fin q => ((Real.logb 10 (q : ℝ) : ℝ) : EReal)
  | .inf => ⊤
  | .negInf => ⊥

/-- The probability computation of `classify_proteins` (`cas_typing.py`,
lines 102-105): `min(100, -10 * math.log10(e_value))` when `e_value > 0`,
else `100`. -/
noncomputable def probScore (e : EFloat) : EReal :=
  if EFloat.blt (.fin 0) e then
    min ((100 : ℝ) : EReal) (((-10 : ℝ) : EReal) * elog10 e)
  else ((100 : ℝ) : EReal)

/-- The per-record body of `classify_proteins` (`cas_typing.py`,
lines 84-122): builds one result dict from one hit record. -/
noncomputable def classifyHit (mapping : List (String × String))
    (protein : Hit) : Classification :=
  let hmmModel := pyLower protein.target_name
  { type := casTypeOf mapping hmmModel
    confidence := confidence protein.e_value
    e_value := protein.e_value
    score := protein.score
    probability := probScore protein.e_value
    hmm_model := hmmModel }

/-- CPython dict assignment `d[k] = v` on an association list whose keys
are distinct: overwrite in place if the key is present, else append. -/
def dictInsert {α : Type} : List (String × α) → String → α → List (String × α)
  | [], k, v => [(k, v)]
  | (a, b) :: t, k, v =>
    if a == k then (k, v) :: t else (a, b) :: dictInsert t k v

/-- `CASTyping.classify_proteins` (`cas_typing.py`, lines 76-126): loops
over the hit records and stores each classification into a dict keyed by
`protein['query_name']`. -/
noncomputable def classifyProteins (mapping : List (String × String))
    (identifiedProteins : List Hit) : List (String × Classification) :=
  identifiedProteins.foldl
    (fun d protein => dictInsert d protein.query_name (classifyHit mapping protein)) []

end CASTyping

namespace HMMERSearch

/-- `str.isspace()` characters occurring in ASCII text, the separators of
Python's `str.split(None, ...)`. -/
def isPySpace (c : Char) : Bool :=
  c == ' ' || c == '\t' || c == '\n' || c == '\r' || c == '\x0b' || c == '\x0c'

/-- Python `line.split(None, maxsplit)` over the character list: skip runs
of whitespace, emit tokens; once `maxsplit` splits have been made, the rest
of the line (leading whitespace consumed) is one final element. -/
def pySplitChars : ℕ → List Char → List (List Char)
  | budget, cs =>
    match budget, cs.dropWhile isPySpace with
    | _, [] => []
    | 0, c :: rest => [c :: rest]
    | b + 1, c :: rest =>
      (c :: rest).takeWhile (fun ch => !isPySpace ch) ::
        pySplitChars b ((c :: rest).dropWhile (fun ch => !isPySpace ch))

/-- Python `line.split(None, maxsplit)` on strings. -/
def pySplitWs (maxsplit : ℕ) (s : String) : List String :=
  (pySplitChars maxsplit s.data).map fun cs => String.mk cs

/-- Python `line.startswith(pre)`. -/
def pyStartsWith (s pre : String) : Bool := pre.data.isPrefixOf s.data

/-- Python `line.strip()`: whitespace removed from both ends. -/
def pyStrip (s : String) : String :=
  String.mk (((s.data.dropWhile isPySpace).reverse.dropWhile isPySpace).reverse)

/-- Value of an ASCII digit run. -/
def digitsToNat (cs : List Char) : ℕ :=
  cs.foldl (fun a c => a * 10 + (c.toNat - 48)) 0

/-- Split `cs` at the first character satisfying `p`; `none` when absent. -/
def breakAt (p : Char → Bool) (cs : List Char) : Option (List Char × List Char) :=
  match cs.dropWhile (fun c => !p c) with
  | [] => none
  | _ :: rest => some (cs.takeWhile (fun c => !p c), rest)

/-- Strip an optional leading sign, returning whether it was `'-'`. -/
def stripSign : List Char → Bool × List Char
  | '-' :: r => (true, r)
  | '+' :: r => (false, r)
  | r => (false, r)

/-- An optionally signed ASCII digit run, as an integer (the exponent part
of a Python float literal). -/
def parseSignedNat (cs : List Char) : Option ℤ :=
  let (neg, ds) := stripSign cs
  if !ds.isEmpty && ds.all Char.isDigit then
    some (if neg then -(digitsToNat ds : ℤ) else (digitsToNat ds : ℤ))
  else none

/-- The unsigned mantissa of a Python float literal:
`digits [. digits]` or `. digits`, returned as (all mantissa digits read as
one number, count of fractional digits), so its value is
`digits / 10 ^ fracLen`. -/
def parseMantissa (cs : List Char) : Option (ℕ × ℕ) :=
  match breakAt (fun c => c == '.') cs with
  | none =>
    if !cs.isEmpty && cs.all Char.isDigit then some (digitsToNat cs, 0) else none
  | some (ip, fp) =>
    if ip.all Char.isDigit && fp.all Char.isDigit && (!ip.isEmpty || !fp.isEmpty) then
      some (digitsToNat (ip ++ fp), fp.length)
    else none

/-- The exact rational value `±(m / 10 ^ fracLen) · 10 ^ ex` of a decimal
literal, built from core integer operations and `mkRat`. -/
def decimalValue (neg : Bool) (m : ℕ) (fracLen : ℕ) (ex : ℤ) : ℚ :=
  let sm : ℤ := if neg then -(m : ℤ) else (m : ℤ)
  let e : ℤ := ex - (fracLen : ℤ)
  if 0 ≤ e then mkRat (sm * ((10 ^ e.toNat : ℕ) : ℤ)) 1
  else mkRat sm (10 ^ (-e).toNat)

/-- Python's built-in `float(s)` on the whitespace-free tokens produced by
`split`: optional sign, then `inf`/`infinity` (case-insensitive) or a
decimal mantissa with optional `e`/`E` exponent; `none` models the
`ValueError` the program catches.  `nan` spellings and underscore digit
separators, which never occur in tblout numeric fields, are not modelled
(they map to `none`). -/
def pyFloat (s : String) : Option EFloat :=
  let (neg, cs) := stripSign s.data
  let low := cs.map Char.toLower
  if low == "inf".data || low == "infinity".data then
    some (if neg then .negInf else .inf)
  else
    match breakAt (fun c => c == 'e' || c == 'E') cs with
    | none => (parseMantissa cs).map fun m => .fin (decimalValue neg m.1 m.2 0)
    | some (mant, ex) =>
      match parseSignedNat ex, parseMantissa mant with
      | some e, some m => some (.fin (decimalValue neg m.1 m.2 e))
      | _, _ => none

/-- The per-line body of `HMMERSearch.parse_results` (`hmmer_search.py`,
lines 130-166): skip comment/blank lines, split on whitespace into at most
23 fields, skip rows with fewer than 9 fields, build one `Hit`.  The
`try/except ValueError` fallbacks are `Option.getD`; no other exception can
escape the per-line `try` (all index accesses are guarded by the length
check), so the function is total. -/
def parseLine (hmmName : String) (line : String) : Option Hit :=
  if pyStartsWith line "#" || pyStrip line == "" then none
  else
    let parts := pySplitWs 22 line
    if parts.length < 9 then none
    else
      let queryName := parts.getD 0 ""
      let target0 := parts.getD 2 ""
      let targetName := if target0 == "-" then hmmName else target0
      let eValue := (pyFloat (parts.getD 4 "")).getD .inf
      let score := (pyFloat (parts.getD 5 "")).getD (.fin 0)
      some { query_name := queryName, target_name := targetName,
             e_value := eValue, score := score, hmm_model := hmmName }

/-- `HMMERSearch.parse_results` (`hmmer_search.py`, lines 118-172): one
`Hit` per successfully parsed line, malformed lines skipped. -/
def parseResults (hmmerOutput : List String) (hmmName : String) : List Hit :=
  hmmerOutput.filterMap (parseLine hmmName)

/-- Outcome of one external `hmmsearch` invocation (the subprocess and
temp-file I/O are outside the embedding): either the captured output lines,
or a `subprocess.CalledProcessError` (non-zero exit), or any other
exception raised in the task. -/
inductive InvocationOutcome where
  | ok (lines : List String)
  | calledProcessError
  | otherError
deriving DecidableEq

/-- `HMMERSearch.run_hmmer` (`hmmer_search.py`, lines 81-116): returns the
captured lines on success; both `except` arms (lines 109-116) swallow the
failure and return `[]`. -/
def runHmmer : InvocationOutcome → List String
  | .ok lines => lines
  | .calledProcessError => []
  | .otherError => []

/-- The per-future body of `HMMERSearch.search` (`hmmer_search.py`,
lines 66-76): take one task's result; when it is non-empty, parse it under
the task's model name. -/
def searchStep (task : String × InvocationOutcome) : List Hit :=
  let hmmResults := runHmmer task.2
  if hmmResults.isEmpty then [] else parseResults hmmResults task.1

/-- `HMMERSearch.search` (`hmmer_search.py`, lines 35-79): aggregate every
task's parsed hits with `results.extend(...)`.  The list order of `tasks`
models the `as_completed` completion order; the claims proved below are
independent of that order. -/
def search (tasks : List (String × InvocationOutcome)) : List Hit :=
  tasks.foldl (fun results task => results ++ searchStep task) []

end HMMERSearch

namespace CASTyping

/-- The `type_counts` accumulation of `generate_report` (`cas_typing.py`,
lines 141-146): count per type in first-seen dict order. -/
def bumpCount : List (String × ℕ) → String → List (String × ℕ)
  | [], t => [(t, 1)]
  | (a, n) :: rest, t =>
    if a == t then (a, n + 1) :: rest else (a, n) :: bumpCount rest t

/-- The `report` list built by `CASTyping.generate_report` (`cas_typing.py`,
lines 138-174).  `fmt1` and `fmt4g` stand for Python's `"{:.1f}"` and
`"{:.4g}"` float formatting, which is presentation-only and left abstract;
`sorted(..., key=probability, reverse=True)` is the stable descending
merge sort. -/
noncomputable def reportLines (fmt1 : EReal → String) (fmt4g : EFloat → String)
    (mapping : List (String × String)) (proteins : List Hit) : List String :=
  let results := classifyProteins mapping proteins
  let typeCounts := results.foldl (fun tc pr => bumpCount tc pr.2.type) []
  let sortedResults :=
    results.mergeSort fun x y => decide (y.2.probability ≤ x.2.probability)
  ["# CRISPR-Cas Protein Classification Report", "", "## Summary",
   "Number of proteins analyzed: " ++ toString results.length, "",
   "## Type Distribution"]
  ++ typeCounts.map (fun p => "- " ++ p.1 ++ ": " ++ toString p.2 ++ " proteins")
  ++ [""]
  ++ ["## Detailed Results (Sorted by Probability)"]
  ++ sortedResults.map (fun pr =>
      "- " ++ pr.1 ++ ": " ++ pr.2.type ++ " (Confidence: " ++ pr.2.confidence
        ++ ", Probability: " ++ fmt1 pr.2.probability ++ "%, E-value: "
        ++ fmt4g pr.2.e_value ++ ")")

/-- `CASTyping.generate_report` (`cas_typing.py`, lines 132-181): the first
component models the file write (`some` content iff `output_file` is
truthy, written as `'\n'.join(report)`), the second is the function's
return value — the string literal `'\n.join(report)'` of line 181. -/
noncomputable def generateReport (fmt1 : EReal → String) (fmt4g : EFloat → String)
    (mapping : List (String × String)) (proteins : List Hit)
    (outputFile : Bool) : Option String × String :=
  (if outputFile then
     some (String.intercalate "\n" (reportLines fmt1 fmt4g mapping proteins))
   else none,
   "\n.join(report)")

end CASTyping

/-! Concrete demonstration inputs used by the counterexamples and
witnesses below. -/

/-- A hit for query `prot1` produced by the `cas9_model` search. -/
def hitDup1 : Hit :=
  { query_name := "prot1", target_name := "cas9_hmm",
    e_value := .fin (mkRat 1 (10 ^ 12)), score := .fin 250,
    hmm_model := "cas9_model" }

/-- A second hit for the same query `prot1`, from a different model. -/
def hitDup2 : Hit :=
  { query_name := "prot1", target_name := "cas3_hmm",
    e_value := .fin (mkRat 1 (10 ^ 8)), score := .fin 100,
    hmm_model := "cas3_model" }

/-- A hit whose reported subject name differs from the producing model. -/
def hitMixedCase : Hit :=
  { query_name := "q1", target_name := "cas9_HMM",
    e_value := .fin (mkRat 1 (10 ^ 12)), score := .fin 250,
    hmm_model := "cas9_model" }

/-- A dispatch over three models: the first invocation fails with a
non-zero exit, the other two succeed with 2 and 3 valid hit lines. -/
def demoTasks : List (String × HMMERSearch.InvocationOutcome) :=
  [("cas9_model", .calledProcessError),
   ("cas3_model", .ok ["# hmmsearch tblout",
                       "q1 - cas9 - 1e-12 300.5 0 0 0",
                       "q2 - cas3 - 1e-8 100.0 0 0 0"]),
   ("cas12_model", .ok ["a - b - 1 2 3 4 5",
                        "c - d - 1 2 3 4 5",
                        "e - f - 1 2 3 4 5"])]

/-- The spec's example tblout data line (with enough trailing fields to
reach the 9-field minimum). -/
def demoTbloutLine : String := "protA - cas9_hmm - 1e-12 250.3 0.1 1 2"

/-- A tblout data line whose e-value field is a negative number. -/
def negEvalueLine : String := "negQ - tgt - -5 6.0 a b c"

/-- The hit record the parser produces from `negEvalueLine`. -/
def negEvalueHit : Hit :=
  { query_name := "negQ", target_name := "tgt",
    e_value := .fin (mkRat (-5) 1), score := .fin (mkRat 6 1),
    hmm_model := "m" }

/-! The theorems.  Order lemmas for `EFloat` first, then the per-claim
results. -/

theorem EFloat.le_def (a b : EFloat) : a ≤ b ↔ EFloat.ble a b = true := Iff.rfl

theorem EFloat.lt_def (a b : EFloat) : a < b ↔ EFloat.blt a b = true := Iff.rfl

theorem EFloat.lt_iff_not_le {a b : EFloat} : a < b ↔ ¬ b ≤ a := by
  cases a <;> cases b <;>
    simp only [le_def, lt_def, EFloat.ble, EFloat.blt, decide_eq_true_eq,
      Bool.true_eq_false, Bool.false_eq_true, not_le, not_true, not_false_iff,
      iff_self, true_iff, false_iff, not_lt]

theorem EFloat.le_trans' {a b c : EFloat} (h1 : a ≤ b) (h2 : b ≤ c) : a ≤ c := by
  cases a <;> cases b <;> cases c <;>
    simp_all only [le_def, EFloat.ble, decide_eq_true_eq, Bool.false_eq_true]
  exact h1.trans h2

/-- Claim C2, counterexample: the `hmm_model` field of the classification
built from `hitMixedCase` is not the source model identifier
(`hitMixedCase.hmm_model = "cas9_model"`) but the lowercased subject name. -/
theorem C2_counterexample :
    (CASTyping.classifyHit CASTyping.defaultMapping hitMixedCase).hmm_model ≠
      hitMixedCase.hmm_model
    ∧ (CASTyping.classifyHit CASTyping.defaultMapping hitMixedCase).hmm_model =
      "cas9_hmm"
    ∧ hitMixedCase.hmm_model = "cas9_model" := by
  refine ⟨by decide, by decide, rfl⟩

/-- Claim C2 (amended): the `hmm_model` field written for each
classification equals the lowercased `target_name` of its hit record, for
every mapping and every hit. -/
theorem C2_hmm_model_is_lowercased_target (mapping : List (String × String))
    (h : Hit) :
    (CASTyping.classifyHit mapping h).hmm_model = CASTyping.pyLower h.target_name :=
  rfl

/-- Claim C3: the code's own comment promises a probability score in the
0-100 range, but at `e_value = 100` the program computes
`min(100, -10*log10(100)) = -20 < 0`. -/
theorem C3_probability_negative_at_100 :
    CASTyping.probScore (EFloat.fin 100) = ((-20 : ℝ) : EReal)
    ∧ CASTyping.probScore (EFloat.fin 100) < ((0 : ℝ) : EReal) := by
  have hcond : EFloat.blt (EFloat.fin 0) (EFloat.fin 100) = true := by decide
  have hcast : ((100 : ℚ) : ℝ) = (100 : ℝ) := by norm_num
  have hlog : Real.logb 10 ((100 : ℚ) : ℝ) = 2 := by
    rw [hcast, show (100 : ℝ) = 10 ^ (2 : ℕ) by norm_num, Real.logb_pow,
      Real.logb_self_eq_one (by norm_num)]
    norm_num
  have hmain : CASTyping.probScore (EFloat.fin 100) = ((-20 : ℝ) : EReal) := by
    simp only [CASTyping.probScore, hcond, if_true, CASTyping.elog10, hlog]
    rw [show ((2 : ℝ) : EReal) = ((2 : ℝ) : EReal) from rfl, ← EReal.coe_mul]
    rw [min_eq_right (EReal.coe_le_coe_iff.mpr (by norm_num))]
    exact congrArg _ (by norm_num)
  exact ⟨hmain, hmain ▸ EReal.coe_lt_coe_iff.mpr (by norm_num)⟩

/-- Claim C5: the classifier lowercases both the mapping key and the
subject name, scans the mapping in insertion order and returns the family
label of the first key whose text is a substring of the name; with no
match it returns `"Unknown"`; on `"Cas3_Cas9_fusion"` the result is the
label of whichever of `"cas3"`/`"cas9"` was inserted first. -/
theorem C5_first_match_wins :
    (∀ (pre : List (String × String)) (key typeValue : String)
       (post : List (String × String)) (name : String),
       (∀ kv ∈ pre, CASTyping.pyIn (CASTyping.pyLower kv.1) (CASTyping.pyLower name) = false) →
       CASTyping.pyIn (CASTyping.pyLower key) (CASTyping.pyLower name) = true →
       CASTyping.casTypeOf (pre ++ (key, typeValue) :: post) name = typeValue)
    ∧ (∀ (mapping : List (String × String)) (name : String),
       (∀ kv ∈ mapping, CASTyping.pyIn (CASTyping.pyLower kv.1) (CASTyping.pyLower name) = false) →
       CASTyping.casTypeOf mapping name = "Unknown")
    ∧ CASTyping.casTypeOf
        [("cas3", "Type I (Cas3)"), ("cas9", "Type II (Cas9)")]
        "Cas3_Cas9_fusion" = "Type I (Cas3)"
    ∧ CASTyping.casTypeOf
        [("cas9", "Type II (Cas9)"), ("cas3", "Type I (Cas3)")]
        "Cas3_Cas9_fusion" = "Type II (Cas9)" := by
  refine ⟨?_, ?_, by decide, by decide⟩
  · intro pre key typeValue post name hpre hkey
    induction pre with
    | nil => simp [CASTyping.casTypeOf, hkey]
    | cons kv t ih =>
      obtain ⟨a, b⟩ := kv
      have ha := hpre (a, b) (List.mem_cons_self _ _)
      simp only [List.cons_append, CASTyping.casTypeOf, ha, Bool.false_eq_true,
        if_false]
      exact ih fun kv hkv => hpre kv (List.mem_cons_of_mem _ hkv)
  · intro mapping name hnone
    induction mapping with
    | nil => rfl
    | cons kv t ih =>
      obtain ⟨a, b⟩ := kv
      have ha := hnone (a, b) (List.mem_cons_self _ _)
      simp only [CASTyping.casTypeOf, ha, Bool.false_eq_true, if_false]
      exact ih fun kv hkv => hnone kv (List.mem_cons_of_mem _ hkv)

/-- Witness for C5: applying the first-match rule at a concrete mapping
with one non-matching earlier key. -/
theorem C5_witness :
    CASTyping.casTypeOf
      ([("cse1", "Type I-E")] ++ ("cas9", "Type II (Cas9)") :: [("cas3", "Type I (Cas3)")])
      "CAS9_region" = "Type II (Cas9)" :=
  C5_first_match_wins.1 [("cse1", "Type I-E")] "cas9" "Type II (Cas9)"
    [("cas3", "Type I (Cas3)")] "CAS9_region" (by decide) (by decide)

/-- Claim C7: the confidence tier is `High` iff `e_value ≤ 1e-10`,
`Medium` iff `1e-10 < e_value ≤ 1e-5`, and `Low` otherwise; the thresholds
are the same for every record (the function depends on nothing else). -/
theorem C7_confidence_thresholds (e : EFloat) :
    (CASTyping.confidence e = "High" ↔ e ≤ EFloat.fin (mkRat 1 (10 ^ 10)))
    ∧ (CASTyping.confidence e = "Medium" ↔
        (EFloat.fin (mkRat 1 (10 ^ 10)) < e ∧ e ≤ EFloat.fin (mkRat 1 (10 ^ 5))))
    ∧ (CASTyping.confidence e = "Low" ↔ EFloat.fin (mkRat 1 (10 ^ 5)) < e) := by
  unfold CASTyping.confidence
  split_ifs with h1 h2
  · refine ⟨⟨fun _ => h1, fun _ => rfl⟩, ?_, ?_⟩
    · exact ⟨fun h => absurd h (by decide),
        fun ⟨hlt, _⟩ => absurd h1 (EFloat.lt_iff_not_le.mp hlt)⟩
    · refine ⟨fun h => absurd h (by decide), fun hlt => ?_⟩
      exact absurd (EFloat.le_trans' h1 (by decide)) (EFloat.lt_iff_not_le.mp hlt)
  · refine ⟨⟨fun h => absurd h (by decide), fun hle => absurd hle h1⟩, ?_, ?_⟩
    · exact ⟨fun _ => ⟨EFloat.lt_iff_not_le.mpr h1, h2⟩, fun _ => rfl⟩
    · exact ⟨fun h => absurd h (by decide),
        fun hlt => absurd h2 (EFloat.lt_iff_not_le.mp hlt)⟩
  · refine ⟨⟨fun h => absurd h (by decide), fun hle => absurd hle h1⟩, ?_, ?_⟩
    · exact ⟨fun h => absurd h (by decide), fun ⟨_, hle⟩ => absurd hle h2⟩
    · exact ⟨fun _ => EFloat.lt_iff_not_le.mpr h2, fun _ => rfl⟩

/-- Witness for C7: at `e_value = 1e-12` the tier is `High`. -/
theorem C7_witness :
    CASTyping.confidence (EFloat.fin (mkRat 1 (10 ^ 12))) = "High" :=
  (C7_confidence_thresholds (EFloat.fin (mkRat 1 (10 ^ 12)))).1.mpr (by decide)

theorem CASTyping.mem_keys_dictInsert {α : Type} (d : List (String × α))
    (k q : String) (v : α) :
    q ∈ (CASTyping.dictInsert d k v).map Prod.fst ↔ q = k ∨ q ∈ d.map Prod.fst := by
  induction d with
  | nil => simp [CASTyping.dictInsert]
  | cons p t ih =>
    obtain ⟨a, b⟩ := p
    by_cases h : a = k
    · subst h
      simp only [CASTyping.dictInsert, beq_self_eq_true, if_true, List.map_cons,
        List.mem_cons]
      tauto
    · simp only [CASTyping.dictInsert, beq_iff_eq, h, if_false, List.map_cons,
        List.mem_cons, ih]
      tauto

theorem CASTyping.nodup_keys_dictInsert {α : Type} (d : List (String × α))
    (k : String) (v : α) (hd : (d.map Prod.fst).Nodup) :
    ((CASTyping.dictInsert d k v).map Prod.fst).Nodup := by
  induction d with
  | nil => simp [CASTyping.dictInsert]
  | cons p t ih =>
    obtain ⟨a, b⟩ := p
    simp only [List.map_cons, List.nodup_cons] at hd
    by_cases h : a = k
    · subst h
      simp only [CASTyping.dictInsert, beq_self_eq_true, if_true, List.map_cons,
        List.nodup_cons]
      exact hd
    · simp only [CASTyping.dictInsert, beq_iff_eq, h, if_false, List.map_cons,
        List.nodup_cons]
      refine ⟨?_, ih hd.2⟩
      rw [CASTyping.mem_keys_dictInsert]
      rintro (rfl | hm)
      · exact h rfl
      · exact hd.1 hm

theorem CASTyping.lookup_dictInsert {α : Type} (d : List (String × α))
    (k q : String) (v : α) :
    List.lookup q (CASTyping.dictInsert d k v) =
      if q = k then some v else List.lookup q d := by
  induction d with
  | nil =>
    by_cases hq : q = k
    · simp [CASTyping.dictInsert, List.lookup, hq]
    · have hb : (q == k) = false := beq_eq_false_iff_ne.mpr hq
      simp [CASTyping.dictInsert, List.lookup, hq, hb]
  | cons p t ih =>
    obtain ⟨a, b⟩ := p
    by_cases h : a = k
    · subst h
      by_cases hq : q = a
      · simp [CASTyping.dictInsert, List.lookup, hq]
      · have hb : (q == a) = false := beq_eq_false_iff_ne.mpr hq
        simp [CASTyping.dictInsert, List.lookup, hq, hb]
    · have hak : (a == k) = false := beq_eq_false_iff_ne.mpr h
      by_cases hq : q = a
      · subst hq
        have hqk : ¬ q = k := h
        simp [CASTyping.dictInsert, List.lookup, hak, hqk]
      · have hb : (q == a) = false := beq_eq_false_iff_ne.mpr hq
        simp [CASTyping.dictInsert, List.lookup, hak, hb, ih]

theorem find_append_or {α : Type} (p : α → Bool) :
    ∀ (l₁ l₂ : List α), (l₁ ++ l₂).find? p =
      ((l₁.find? p).orElse fun _ => l₂.find? p) := by
  intro l₁ l₂
  induction l₁ with
  | nil => simp
  | cons a t ih =>
    cases hp : p a <;> simp [List.find?, hp, ih]

theorem CASTyping.classifyFold_keys_mem (mapping : List (String × String)) :
    ∀ (hits : List Hit) (d : List (String × Classification)) (q : String),
      (q ∈ (hits.foldl
          (fun d protein =>
            CASTyping.dictInsert d protein.query_name
              (CASTyping.classifyHit mapping protein)) d).map Prod.fst)
        ↔ q ∈ hits.map Hit.query_name ∨ q ∈ d.map Prod.fst := by
  intro hits
  induction hits with
  | nil => simp
  | cons h t ih =>
    intro d q
    simp only [List.foldl_cons, List.map_cons, List.mem_cons, ih,
      CASTyping.mem_keys_dictInsert]
    tauto

theorem CASTyping.classifyFold_keys_nodup (mapping : List (String × String)) :
    ∀ (hits : List Hit) (d : List (String × Classification)),
      (d.map Prod.fst).Nodup →
      ((hits.foldl
          (fun d protein =>
            CASTyping.dictInsert d protein.query_name
              (CASTyping.classifyHit mapping protein)) d).map Prod.fst).Nodup := by
  intro hits
  induction hits with
  | nil => exact fun d hd => hd
  | cons h t ih =>
    intro d hd
    exact ih _ (CASTyping.nodup_keys_dictInsert d _ _ hd)

theorem CASTyping.classifyFold_lookup (mapping : List (String × String)) :
    ∀ (hits : List Hit) (d : List (String × Classification)) (q : String),
      List.lookup q (hits.foldl
          (fun d protein =>
            CASTyping.dictInsert d protein.query_name
              (CASTyping.classifyHit mapping protein)) d) =
        match hits.reverse.find? fun p => p.query_name == q with
        | some p => some (CASTyping.classifyHit mapping p)
        | none => List.lookup q d := by
  intro hits
  induction hits with
  | nil => intro d q; rfl
  | cons h t ih =>
    intro d q
    rw [List.foldl_cons, ih, List.reverse_cons,
      find_append_or (fun p => p.query_name == q) t.reverse [h]]
    cases hf : t.reverse.find? fun p => p.query_name == q with
    | some p => rfl
    | none =>
      cases hph : (h.query_name == q) with
      | true =>
        have hq : q = h.query_name := (beq_iff_eq.mp hph).symm
        simp [List.find?, hph, CASTyping.lookup_dictInsert, hq]
      | false =>
        have hq : ¬ q = h.query_name := fun hqe => by simp [hqe] at hph
        simp [List.find?, hph, CASTyping.lookup_dictInsert, hq]

/-- Claim C1, counterexample: two hit records with the same query id give
one classification row, not two — `classify_proteins` stores results in a
dict keyed by query id, so the later hit overwrites the earlier one. -/
theorem C1_counterexample :
    [hitDup1, hitDup2].length = 2
    ∧ (CASTyping.classifyProteins CASTyping.defaultMapping [hitDup1, hitDup2]).length = 1 :=
  ⟨rfl, by decide⟩

/-- Claim C1 (amended): `classify_proteins` produces exactly one
classification row per distinct query id (keys are the distinct query ids,
without duplicates), and the row kept for a query is the classification of
the last hit record with that query id. -/
theorem C1_one_row_per_distinct_query (mapping : List (String × String))
    (hits : List Hit) :
    ((CASTyping.classifyProteins mapping hits).map Prod.fst).Nodup
    ∧ (∀ q, q ∈ (CASTyping.classifyProteins mapping hits).map Prod.fst ↔
        q ∈ hits.map Hit.query_name)
    ∧ (CASTyping.classifyProteins mapping hits).length =
        (hits.map Hit.query_name).toFinset.card
    ∧ (∀ q, List.lookup q (CASTyping.classifyProteins mapping hits) =
        (hits.reverse.find? fun p => p.query_name == q).map
          (CASTyping.classifyHit mapping)) := by
  have hnodup : ((CASTyping.classifyProteins mapping hits).map Prod.fst).Nodup :=
    CASTyping.classifyFold_keys_nodup mapping hits [] (by simp)
  have hmem : ∀ q, q ∈ (CASTyping.classifyProteins mapping hits).map Prod.fst ↔
      q ∈ hits.map Hit.query_name := by
    intro q
    rw [CASTyping.classifyProteins, CASTyping.classifyFold_keys_mem mapping hits [] q]
    simp
  refine ⟨hnodup, hmem, ?_, ?_⟩
  · have hsets : ((CASTyping.classifyProteins mapping hits).map Prod.fst).toFinset =
        (hits.map Hit.query_name).toFinset := by
      apply Finset.ext
      intro q
      simp only [List.mem_toFinset]
      exact hmem q
    calc (CASTyping.classifyProteins mapping hits).length
        = ((CASTyping.classifyProteins mapping hits).map Prod.fst).length := by
          rw [List.length_map]
      _ = ((CASTyping.classifyProteins mapping hits).map Prod.fst).toFinset.card :=
          (List.toFinset_card_of_nodup hnodup).symm
      _ = (hits.map Hit.query_name).toFinset.card := by rw [hsets]
  · intro q
    rw [CASTyping.classifyProteins, CASTyping.classifyFold_lookup mapping hits [] q]
    cases hits.reverse.find? fun p => p.query_name == q <;> rfl

theorem HMMERSearch.search_foldl (tasks : List (String × HMMERSearch.InvocationOutcome))
    (acc : List Hit) :
    tasks.foldl (fun results task => results ++ HMMERSearch.searchStep task) acc =
      acc ++ HMMERSearch.search tasks := by
  induction tasks generalizing acc with
  | nil => simp [HMMERSearch.search]
  | cons t ts ih =>
    rw [HMMERSearch.search, List.foldl_cons, List.foldl_cons, ih, ih]
    simp [List.append_assoc]

theorem HMMERSearch.search_cons (t : String × HMMERSearch.InvocationOutcome)
    (ts : List (String × HMMERSearch.InvocationOutcome)) :
    HMMERSearch.search (t :: ts) = HMMERSearch.searchStep t ++ HMMERSearch.search ts := by
  rw [HMMERSearch.search, List.foldl_cons, HMMERSearch.search_foldl]
  simp

theorem HMMERSearch.search_append (xs ys : List (String × HMMERSearch.InvocationOutcome)) :
    HMMERSearch.search (xs ++ ys) = HMMERSearch.search xs ++ HMMERSearch.search ys := by
  induction xs with
  | nil => simp [HMMERSearch.search]
  | cons t ts ih =>
    rw [List.cons_append, HMMERSearch.search_cons, HMMERSearch.search_cons, ih,
      List.append_assoc]

/-- Claim C4: a model whose external invocation fails (non-zero exit or any
other exception in the task) contributes zero hits while every other
model's task still contributes its parsed hits; concretely, with 3 models
where one invocation fails and the others produce 2 and 3 valid hit lines,
`search` returns exactly 5 hit records (and, being a total function, it
raises nothing). -/
theorem C4_single_failure_yields_empty_hits :
    (∀ (pre post : List (String × HMMERSearch.InvocationOutcome)) (name : String),
        HMMERSearch.search (pre ++ (name, .calledProcessError) :: post) =
          HMMERSearch.search pre ++ HMMERSearch.search post)
    ∧ (∀ (pre post : List (String × HMMERSearch.InvocationOutcome)) (name : String),
        HMMERSearch.search (pre ++ (name, .otherError) :: post) =
          HMMERSearch.search pre ++ HMMERSearch.search post)
    ∧ demoTasks.length = 3
    ∧ (HMMERSearch.search demoTasks).length = 5 := by
  refine ⟨?_, ?_, rfl, by decide⟩
  · intro pre post name
    rw [HMMERSearch.search_append, HMMERSearch.search_cons]
    rfl
  · intro pre post name
    rw [HMMERSearch.search_append, HMMERSearch.search_cons]
    rfl

theorem CASTyping.probScore_le_100 (e : EFloat) :
    CASTyping.probScore e ≤ ((100 : ℝ) : EReal) := by
  unfold CASTyping.probScore
  split
  · exact min_le_left _ _
  · exact le_refl _

/-- Claim C6: for `e_value > 0` the probability is
`min(100, -10 * log10(e_value))`, for `e_value = 0` it is `100`, and the
probability is monotonically non-increasing in the e-value. -/
theorem C6_probability_formula_and_monotone :
    (∀ e : EFloat, EFloat.fin 0 < e →
        CASTyping.probScore e =
          min ((100 : ℝ) : EReal) (((-10 : ℝ) : EReal) * CASTyping.elog10 e))
    ∧ CASTyping.probScore (EFloat.fin 0) = ((100 : ℝ) : EReal)
    ∧ (∀ e1 e2 : EFloat, e1 ≤ e2 →
        CASTyping.probScore e2 ≤ CASTyping.probScore e1) := by
  refine ⟨?_, ?_, ?_⟩
  · intro e h
    have h' : EFloat.blt (.fin 0) e = true := h
    unfold CASTyping.probScore
    rw [if_pos h']
  · rfl
  · intro e1 e2 h
    cases e1 with
    | negInf =>
      exact le_trans (CASTyping.probScore_le_100 e2) (le_of_eq rfl)
    | inf =>
      cases e2 with
      | fin q => exact absurd h (by simp [EFloat.le_def, EFloat.ble])
      | negInf => exact absurd h (by simp [EFloat.le_def, EFloat.ble])
      | inf => exact le_refl _
    | fin a =>
      cases e2 with
      | negInf => exact absurd h (by simp [EFloat.le_def, EFloat.ble])
      | inf =>
        have hinf : CASTyping.probScore EFloat.inf = ⊥ := by
          unfold CASTyping.probScore
          rw [if_pos (show EFloat.blt (.fin 0) .inf = true from rfl),
            show CASTyping.elog10 .inf = ⊤ from rfl,
            EReal.mul_top_of_neg (EReal.coe_neg'.mpr (by norm_num))]
          exact min_eq_right bot_le
        rw [hinf]
        exact bot_le
      | fin b =>
        have hab : a ≤ b := by
          simpa [EFloat.le_def, EFloat.ble] using h
        by_cases hb : 0 < b
        · by_cases ha : 0 < a
          · have h1 : EFloat.blt (.fin 0) (.fin a) = true := by
              simp [EFloat.blt, ha]
            have h2 : EFloat.blt (.fin 0) (.fin b) = true := by
              simp [EFloat.blt, hb]
            unfold CASTyping.probScore
            rw [if_pos h2, if_pos h1]
            refine min_le_min (le_refl _) ?_
            show ((-10 : ℝ) : EReal) * CASTyping.elog10 (.fin b) ≤
              ((-10 : ℝ) : EReal) * CASTyping.elog10 (.fin a)
            unfold CASTyping.elog10
            rw [← EReal.coe_mul, ← EReal.coe_mul]
            refine EReal.coe_le_coe_iff.mpr ?_
            have hlog : Real.logb 10 ((a : ℚ) : ℝ) ≤ Real.logb 10 ((b : ℚ) : ℝ) :=
              Real.logb_le_logb_of_le (by norm_num) (by exact_mod_cast ha)
                (by exact_mod_cast hab)
            linarith
          · have h1 : EFloat.blt (.fin 0) (.fin a) = false := by
              simp [EFloat.blt, ha]
            have he1 : CASTyping.probScore (.fin a) = ((100 : ℝ) : EReal) := by
              simp [CASTyping.probScore, h1]
            rw [he1]
            exact CASTyping.probScore_le_100 _
        · have hna : ¬ 0 < a := fun ha => hb (lt_of_lt_of_le ha hab)
          have he1 : CASTyping.probScore (.fin a) = ((100 : ℝ) : EReal) := by
            simp [CASTyping.probScore, EFloat.blt, hna]
          have he2 : CASTyping.probScore (.fin b) = ((100 : ℝ) : EReal) := by
            simp [CASTyping.probScore, EFloat.blt, hb]
          rw [he1, he2]

/-- Witness for C6: the formula instance at `e_value = 100` and the
monotone comparison of the records with e-values `1` and `100`. -/
theorem C6_witness :
    CASTyping.probScore (EFloat.fin 100) =
      min ((100 : ℝ) : EReal) (((-10 : ℝ) : EReal) * CASTyping.elog10 (EFloat.fin 100))
    ∧ CASTyping.probScore (EFloat.fin 100) ≤ CASTyping.probScore (EFloat.fin 1) :=
  ⟨C6_probability_formula_and_monotone.1 (EFloat.fin 100) (by decide),
   C6_probability_formula_and_monotone.2.2 (EFloat.fin 1) (EFloat.fin 100) (by decide)⟩

theorem HMMERSearch.pySplitChars_length_le (budget : ℕ) :
    ∀ cs : List Char, (HMMERSearch.pySplitChars budget cs).length ≤ budget + 1 := by
  induction budget with
  | zero =>
    intro cs
    unfold HMMERSearch.pySplitChars
    cases cs.dropWhile HMMERSearch.isPySpace <;> simp
  | succ b ih =>
    intro cs
    unfold HMMERSearch.pySplitChars
    cases cs.dropWhile HMMERSearch.isPySpace with
    | nil => simp
    | cons c rest =>
      simp only [List.length_cons]
      exact Nat.succ_le_succ (ih _)

/-- Claim C8: a raw output line is split on whitespace into at most 23
fields; comment lines, blank lines and lines with fewer than 9 fields
yield no record; every other line yields exactly one record built from
fields 0, 2 (with the `-` placeholder replaced by the model name), 4
(float, `+∞` on parse failure) and 5 (float, `0.0` on parse failure);
the parser is a total function, and on the spec's example line it produces
the stated record, which classifies as the Cas9 family with `High`
confidence. -/
theorem C8_parser_behavior (name line : String) :
    (HMMERSearch.pySplitWs 22 line).length ≤ 23
    ∧ (HMMERSearch.pyStartsWith line "#" = true ∨ HMMERSearch.pyStrip line = ""
        ∨ (HMMERSearch.pySplitWs 22 line).length < 9 →
        HMMERSearch.parseLine name line = none)
    ∧ (HMMERSearch.pyStartsWith line "#" = false → HMMERSearch.pyStrip line ≠ "" →
        9 ≤ (HMMERSearch.pySplitWs 22 line).length →
        HMMERSearch.parseLine name line = some
          { query_name := (HMMERSearch.pySplitWs 22 line).getD 0 ""
            target_name :=
              if (HMMERSearch.pySplitWs 22 line).getD 2 "" = "-" then name
              else (HMMERSearch.pySplitWs 22 line).getD 2 ""
            e_value :=
              (HMMERSearch.pyFloat ((HMMERSearch.pySplitWs 22 line).getD 4 "")).getD .inf
            score :=
              (HMMERSearch.pyFloat ((HMMERSearch.pySplitWs 22 line).getD 5 "")).getD (.fin 0)
            hmm_model := name })
    ∧ (∀ lines : List String, (HMMERSearch.parseResults lines name).length =
        lines.countP fun l => (HMMERSearch.parseLine name l).isSome)
    ∧ (HMMERSearch.parseResults [demoTbloutLine] "cas9_model" =
        [{ query_name := "protA", target_name := "cas9_hmm",
           e_value := .fin (mkRat 1 (10 ^ 12)), score := .fin (mkRat 2503 10),
           hmm_model := "cas9_model" }]
       ∧ CASTyping.confidence (EFloat.fin (mkRat 1 (10 ^ 12))) = "High"
       ∧ CASTyping.casTypeOf CASTyping.defaultMapping "cas9_hmm" = "Type II (Cas9)") := by
  refine ⟨?_, ?_, ?_, ?_, by decide⟩
  · rw [HMMERSearch.pySplitWs, List.length_map]
    exact HMMERSearch.pySplitChars_length_le 22 _
  · intro h
    rcases h with h | h | h
    · simp [HMMERSearch.parseLine, h]
    · simp [HMMERSearch.parseLine, h]
    · simp only [HMMERSearch.parseLine]
      split_ifs <;> rfl
  · intro hs hb hlen
    have hb' : (HMMERSearch.pyStrip line == "") = false := beq_eq_false_iff_ne.mpr hb
    have hlen' : ¬ (HMMERSearch.pySplitWs 22 line).length < 9 := not_lt.mpr hlen
    by_cases hdash : (HMMERSearch.pySplitWs 22 line).getD 2 "" = "-"
    · simp [HMMERSearch.parseLine, hs, hb', hlen', hdash]
    · have hdash' : ((HMMERSearch.pySplitWs 22 line).getD 2 "" == "-") = false :=
        beq_eq_false_iff_ne.mpr hdash
      simp [HMMERSearch.parseLine, hs, hb', hlen', hdash, hdash']
  · intro lines
    induction lines with
    | nil => rfl
    | cons l ls ih =>
      simp only [HMMERSearch.parseResults] at ih ⊢
      cases hpl : HMMERSearch.parseLine name l <;>
        simp [List.filterMap_cons, List.countP_cons, hpl, ih]

/-- Witness for C8: the skip rule applied to a concrete comment line. -/
theorem C8_witness :
    HMMERSearch.parseLine "cas9_model" "#  hmmsearch tblout header" = none :=
  (C8_parser_behavior "cas9_model" "#  hmmsearch tblout header").2.1 (Or.inl (by decide))

/-- Claim C9, counterexample: a line whose e-value field is the parseable
negative number `-5` produces a hit record with a negative `e_value`, so
the parser does not guarantee `e_value ≥ 0`. -/
theorem C9_counterexample :
    (HMMERSearch.parseResults [negEvalueLine] "m").map Hit.e_value =
      [EFloat.fin (mkRat (-5) 1)]
    ∧ EFloat.fin (mkRat (-5) 1) < EFloat.fin 0 := by
  exact ⟨by decide, by decide⟩

/-- Claim C9 (amended): the `e_value` of every parsed record is exactly
`float(field 4)` with `+∞` substituted only on parse failure; the sign is
never checked, so a negative `e_value` occurs precisely when field 4
parses as a negative float. -/
theorem C9_evalue_passthrough (name line : String) (hit : Hit)
    (h : HMMERSearch.parseLine name line = some hit) :
    hit.e_value =
      (HMMERSearch.pyFloat ((HMMERSearch.pySplitWs 22 line).getD 4 "")).getD EFloat.inf
    ∧ (hit.e_value < EFloat.fin 0 →
        HMMERSearch.pyFloat ((HMMERSearch.pySplitWs 22 line).getD 4 "") =
          some hit.e_value) := by
  simp only [HMMERSearch.parseLine] at h
  split_ifs at h with h1 h2 h3
  all_goals
    rw [Option.some.injEq] at h
    subst h
    refine ⟨rfl, ?_⟩
    intro hneg
    cases hpf : HMMERSearch.pyFloat ((HMMERSearch.pySplitWs 22 line).getD 4 "") with
    | some v => simp [hpf]
    | none =>
      exfalso
      simp only [hpf, Option.getD_none] at hneg
      exact absurd hneg (by decide)

/-- Witness for C9: the pass-through equation instantiated at the concrete
negative-e-value line. -/
theorem C9_witness :
    negEvalueHit.e_value =
      (HMMERSearch.pyFloat ((HMMERSearch.pySplitWs 22 negEvalueLine).getD 4 "")).getD
        EFloat.inf
    ∧ (negEvalueHit.e_value < EFloat.fin 0 →
        HMMERSearch.pyFloat ((HMMERSearch.pySplitWs 22 negEvalueLine).getD 4 "") =
          some negEvalueHit.e_value) :=
  C9_evalue_passthrough "m" negEvalueLine negEvalueHit (by decide)

/-- Claim C10: `generate_report` always returns the constant string
literal `'\n.join(report)'` (a newline followed by `.join(report)`); the
return value does not depend on the classifications at all, while the
correctly `'\n'.join`-ed report text is what gets written when an output
file is given — and the written text is not the returned string. -/
theorem C10_generate_report_returns_literal :
    (∀ (fmt1 : EReal → String) (fmt4g : EFloat → String)
       (mapping : List (String × String)) (proteins : List Hit) (outFile : Bool),
        (CASTyping.generateReport fmt1 fmt4g mapping proteins outFile).2 =
          "\n.join(report)")
    ∧ (∀ fmt1 fmt4g mapping proteins outFile fmt1' fmt4g' mapping' proteins' outFile',
        (CASTyping.generateReport fmt1 fmt4g mapping proteins outFile).2 =
          (CASTyping.generateReport fmt1' fmt4g' mapping' proteins' outFile').2)
    ∧ (∀ fmt1 fmt4g mapping proteins,
        (CASTyping.generateReport fmt1 fmt4g mapping proteins true).1 =
          some (String.intercalate "\n"
            (CASTyping.reportLines fmt1 fmt4g mapping proteins)))
    ∧ (∀ fmt1 fmt4g mapping proteins,
        (CASTyping.generateReport fmt1 fmt4g mapping proteins false).1 = none)
    ∧ (∀ fmt1 fmt4g mapping,
        (CASTyping.generateReport fmt1 fmt4g mapping [] true).1 ≠
          some ((CASTyping.generateReport fmt1 fmt4g mapping [] true).2)) := by
  refine ⟨fun _ _ _ _ _ => rfl, fun _ _ _ _ _ _ _ _ _ _ => rfl,
    fun _ _ _ _ => rfl, fun _ _ _ _ => rfl, ?_⟩
  intro fmt1 fmt4g mapping hcontra
  simp only [CASTyping.generateReport, CASTyping.reportLines,
    CASTyping.classifyProteins, List.foldl_nil, List.mergeSort_nil, List.map_nil,
    List.length_nil, List.append_nil, List.nil_append, if_true,
    Option.some.injEq] at hcontra
  exact absurd hcontra (by decide)
